import Mathlib

/-!
Shallow embedding of `src/app.py` (AkashSC/AIPPTCreation): the regex-based
style-prompt parser (`parse_design_prompt`), the LLM-output slide parser
(`parse_slides_from_output`), the call-site style merge of the generate
handler, and the color resolver (`hex_to_rgb_obj`).

Strings are modelled as `List Char` internally; Python `dict`s as ordered
association lists (`List (String × SVal)`), whose insert replaces in place
(preserving insertion order) or appends, exactly like CPython dicts.
Python's `\s`, `str.strip` and `str.splitlines` are modelled over their
ASCII alphabets; regex scanning (leftmost match, greedy/lazy backtracking)
is translated operationally, with a comment at each function naming the
regex it embeds.
-/

namespace AIPPT

/-- ASCII white-space, the alphabet of Python `\s` / `str.strip()`. -/
def isPySpace (c : Char) : Bool :=
  c = ' ' || c = '\t' || c = '\n' || c = '\r' || c = '\x0b' || c = '\x0c'

/-- Python `str.strip()` over the ASCII white-space alphabet. -/
def pyStrip (cs : List Char) : List Char :=
  ((cs.dropWhile isPySpace).reverse.dropWhile isPySpace).reverse

/-- Lower-case a character list (Python `str.lower()`, ASCII letters). -/
def lowerL (cs : List Char) : List Char := cs.map Char.toLower

/-- Exact prefix test over char lists. -/
def startsWithL : List Char → List Char → Bool
  | [], _ => true
  | _ :: _, [] => false
  | p :: ps, c :: cs => (p == c) && startsWithL ps cs

/-- Case-insensitive prefix test: the pattern is given lower-cased. -/
def startsWithCI : List Char → List Char → Bool
  | [], _ => true
  | _ :: _, [] => false
  | p :: ps, c :: cs => (c.toLower == p) && startsWithCI ps cs

/-- Python `pat in s` substring test. -/
def containsSub (pat : List Char) : List Char → Bool
  | [] => startsWithL pat []
  | c :: rest => startsWithL pat (c :: rest) || containsSub pat rest

/-- Hexadecimal digit, the class `[0-9a-fA-F]`. -/
def isHexDig (c : Char) : Bool :=
  c.isDigit || (decide ('a' ≤ c) && decide (c ≤ 'f')) || (decide ('A' ≤ c) && decide (c ≤ 'F'))

/-- A JSON-style scalar value, as stored in the Python style dicts. -/
inductive SVal where
  | s (v : String)
  | n (v : Int)
  | b (v : Bool)
  | null
deriving DecidableEq, Repr

/-- Ordered association-list lookup (Python `d[k]` / `d.get(k)`). -/
def alGet {β : Type} : List (String × β) → String → Option β
  | [], _ => none
  | (k, v) :: rest, key => if k = key then some v else alGet rest key

/-- A Python dict of style settings: insertion-ordered key/value pairs. -/
abbrev StyleDict := List (String × SVal)

/-- Python `d[k] = v`: replace in place (at the key's position) when the
key exists, else append at the end — CPython dicts preserve insertion
order exactly this way. -/
def dictInsert : StyleDict → String → SVal → StyleDict
  | [], k, v => [(k, v)]
  | (k0, v0) :: rest, k, v =>
    if k0 = k then (k, v) :: rest else (k0, v0) :: dictInsert rest k v

/-- The `COLOR_MAP` dict literal of app.py, in insertion order. -/
def COLOR_MAP : List (String × String) :=
  [("blue", "#003366"), ("dark blue", "#003366"), ("black", "#000000"), ("white", "#FFFFFF"),
   ("green", "#008000"), ("red", "#FF0000"), ("yellow", "#FFCC00"), ("gray", "#808080"),
   ("dark", "#333333"), ("light", "#F8F8F8"), ("orange", "#FF8C00"), ("purple", "#800080")]

/-- The `FONT_OPTIONS` list of app.py. -/
def FONT_OPTIONS : List String :=
  ["Arial", "Calibri", "Times New Roman", "Helvetica", "Comic Sans MS", "Verdana"]

/-- The initial `style` dict literal of `parse_design_prompt`. -/
def initStyle : StyleDict :=
  [("background_color", SVal.s "#FFFFFF"), ("font", SVal.s "Arial"), ("font_size", SVal.n 14),
   ("font_color", SVal.s "#000000"), ("emoji_in_bullets", SVal.b false)]

/-- `re.search(r'#([0-9a-fA-F]{6})', prompt)`: first `#` followed by six hex
digits; returns the six digits (group 1, original case). -/
def findHex : List Char → Option (List Char)
  | [] => none
  | c :: rest =>
    if c = '#' ∧ (rest.take 6).length = 6 ∧ (rest.take 6).all isHexDig = true then
      some (rest.take 6)
    else findHex rest

/-- The hex-color step of `parse_design_prompt` (searches the raw prompt). -/
def hexStep (prompt : List Char) (st : StyleDict) : StyleDict :=
  match findHex prompt with
  | some h => dictInsert st "background_color" (SVal.s (String.mk ('#' :: h)))
  | none => st

/-- First `COLOR_MAP` entry (dict iteration order) whose name occurs in the
lower-cased prompt. -/
def findColor (prompt_l : List Char) : Option (String × String) :=
  COLOR_MAP.find? (fun p => containsSub p.1.toList prompt_l)

/-- The names for which app.py picks a white font color. -/
def darkNames : List String := ["blue", "dark blue", "black", "dark", "purple"]

/-- The color-word loop of `parse_design_prompt`: first match wins, sets
`background_color` and a readable `font_color`, then breaks. -/
def colorStep (prompt_l : List Char) (st : StyleDict) : StyleDict :=
  match findColor prompt_l with
  | some (name, hx) =>
    dictInsert (dictInsert st "background_color" (SVal.s hx)) "font_color"
      (SVal.s (if name ∈ darkNames then "#FFFFFF" else "#000000"))
  | none => st

/-- The font loop: first `FONT_OPTIONS` entry occurring (lower-cased) in the
prompt. -/
def fontStep (prompt_l : List Char) (st : StyleDict) : StyleDict :=
  match FONT_OPTIONS.find? (fun f => containsSub (lowerL f.toList) prompt_l) with
  | some f => dictInsert st "font" (SVal.s f)
  | none => st

/-- The `large`/`big` size hint: sets 20. -/
def sizeLargeStep (prompt_l : List Char) (st : StyleDict) : StyleDict :=
  if containsSub "large".toList prompt_l || containsSub "big".toList prompt_l
      || containsSub "title large".toList prompt_l then
    dictInsert st "font_size" (SVal.n 20)
  else st

/-- The `small`/`compact` size hint: sets 12 (evaluated after the large
hint, as in the source's two independent `if`s). -/
def sizeSmallStep (prompt_l : List Char) (st : StyleDict) : StyleDict :=
  if containsSub "small".toList prompt_l || containsSub "compact".toList prompt_l then
    dictInsert st "font_size" (SVal.n 12)
  else st

/-- Two decimal digits (`\d{2}`), returning their value. -/
def twoDigits : List Char → Option Nat
  | c :: d :: _ =>
    if c.isDigit && d.isDigit then some ((c.toNat - 48) * 10 + (d.toNat - 48)) else none
  | _ => none

/-- `[:= ]?(\d{2})` with greedy backtracking on the optional separator. -/
def sepDigits (cs : List Char) : Option Nat :=
  match cs with
  | c :: rest =>
    if c = ':' || c = '=' || c = ' ' then
      match twoDigits rest with
      | some v => some v
      | none => twoDigits cs
    else twoDigits cs
  | [] => none

/-- ` ?[:= ]?(\d{2})` with greedy backtracking on the optional space. -/
def sizeTail (cs : List Char) : Option Nat :=
  match cs with
  | ' ' :: rest =>
    match sepDigits rest with
    | some v => some v
    | none => sepDigits cs
  | _ => sepDigits cs

/-- Literal match, returning the remainder. -/
def stripLit (pat : String) (cs : List Char) : Option (List Char) :=
  if startsWithL pat.toList cs then some (cs.drop pat.length) else none

/-- One anchored attempt of `font ?size ?[:= ]?(\d{2})`. -/
def matchFSAt (cs : List Char) : Option Nat :=
  match stripLit "font" cs with
  | none => none
  | some r1 =>
    match r1 with
    | ' ' :: r2 =>
      match stripLit "size" r2 with
      | some r3 => sizeTail r3
      | none => none
    | _ =>
      match stripLit "size" r1 with
      | some r3 => sizeTail r3
      | none => none

/-- `re.search(r'font ?size ?[:= ]?(\d{2})', prompt_l)`: leftmost match. -/
def findFontSize : List Char → Option Nat
  | [] => none
  | c :: rest =>
    match matchFSAt (c :: rest) with
    | some v => some v
    | none => findFontSize rest

/-- The explicit numeric font-size step (walrus `if m := re.search(...)`). -/
def fsStep (prompt_l : List Char) (st : StyleDict) : StyleDict :=
  match findFontSize prompt_l with
  | some v => dictInsert st "font_size" (SVal.n v)
  | none => st

/-- The emoji-instruction step. -/
def emojiStep (prompt_l : List Char) (st : StyleDict) : StyleDict :=
  if containsSub "emoji".toList prompt_l || containsSub "emojis".toList prompt_l
      || containsSub "smiley".toList prompt_l then
    dictInsert st "emoji_in_bullets" (SVal.b true)
  else st

/-- `parse_design_prompt` of app.py: hex color, color words, font, size
keywords, explicit numeric size, emoji flag — applied in source order to
the default style dict. -/
def parse_design_prompt (prompt : String) : StyleDict :=
  let pl := lowerL prompt.toList
  emojiStep pl (fsStep pl (sizeSmallStep pl (sizeLargeStep pl (fontStep pl
    (colorStep pl (hexStep prompt.toList initStyle))))))

/-- The generate-handler merge: `for k, v in style_json.items():
global_style[k] = v` — extracted-JSON values override, keyed by name. -/
def mergeStyles (base : StyleDict) (j : StyleDict) : StyleDict :=
  j.foldl (fun d kv => dictInsert d kv.1 kv.2) base

/-- The generate-handler fill: `if k not in global_style or
global_style.get(k) is None: global_style[k] = v`. -/
def fillMissing (d : StyleDict) (parsed : StyleDict) : StyleDict :=
  parsed.foldl
    (fun d kv =>
      if alGet d kv.1 = none ∨ alGet d kv.1 = some SVal.null then dictInsert d kv.1 kv.2
      else d)
    d

/-- The style resolution of the generate handler for one file: prompt-parsed
base, extracted style JSON overriding it, then prompt-parsed values filling
still-missing/None keys. -/
def resolvedStyle (designPrompt : String) (styleJson : Option StyleDict) : StyleDict :=
  let g := parse_design_prompt designPrompt
  let g2 := match styleJson with
            | some j => mergeStyles g j
            | none => g
  fillMissing g2 (parse_design_prompt designPrompt)

/-! ## Slide content parser (`parse_slides_from_output` and helpers) -/

/-- A slide record: `{"title": ..., "bullets": [...]}`. -/
structure PySlide where
  title : String
  bullets : List String
deriving DecidableEq, Repr

/-- Line-break characters split on by Python `str.splitlines()` (ASCII part;
`\r\n` is treated as a single break by the caller). -/
def isLB (c : Char) : Bool :=
  c = '\n' || c = '\r' || c = '\x0b' || c = '\x0c' || c = '\x1c' || c = '\x1d' || c = '\x1e'

/-- Worker for `pySplitlines`: accumulates the current line (reversed).
Fuelled; fuel = input length suffices (each step consumes a character). -/
def slGoF : Nat → List Char → List Char → List (List Char)
  | 0, _, acc => [acc.reverse]
  | _ + 1, [], acc => [acc.reverse]
  | fuel + 1, c :: rest, acc =>
    if c = '\r' then
      match rest with
      | '\n' :: rest2 => acc.reverse :: (if rest2 = [] then [] else slGoF fuel rest2 [])
      | _ => acc.reverse :: (if rest = [] then [] else slGoF fuel rest [])
    else if isLB c then acc.reverse :: (if rest = [] then [] else slGoF fuel rest [])
    else slGoF fuel rest (c :: acc)

/-- Python `str.splitlines()`: no trailing empty line for a final break. -/
def pySplitlines (cs : List Char) : List (List Char) :=
  if cs = [] then [] else slGoF cs.length cs []

/-- Worker for `collapseWs`: the flag records being inside a white-space
run whose first character was already emitted as a single space. -/
def cwGo : List Char → Bool → List Char
  | [], _ => []
  | c :: rest, inRun =>
    if isPySpace c then
      if inRun then cwGo rest true else ' ' :: cwGo rest true
    else c :: cwGo rest false

/-- `re.sub(r"\s+", " ", text)`: each maximal white-space run becomes one
space. -/
def collapseWs (cs : List Char) : List Char := cwGo cs false

/-- Worker for `sentSplit`. Arguments: remaining text, whether the previous
character was one of `.`/`!`/`?`, whether we are inside a delimiter run
(`\s+` preceded by a sentence ender). Returns (first piece, later pieces). -/
def ssGo : List Char → Bool → Bool → List Char × List (List Char)
  | [], _, _ => ([], [])
  | c :: rest, prevEnd, inDelim =>
    if isPySpace c && inDelim then ssGo rest false true
    else if isPySpace c && prevEnd then
      let r := ssGo rest false true
      ([], r.1 :: r.2)
    else
      let r := ssGo rest (c = '.' || c = '!' || c = '?') false
      (c :: r.1, r.2)

/-- `re.split(r'(?<=[.!?])\s+', s)`: split on white-space runs that follow a
sentence-ending punctuation mark. Always returns at least one piece. -/
def sentSplit (cs : List Char) : List (List Char) :=
  let r := ssGo cs false false
  r.1 :: r.2

/-- `" ".join(xs)`. -/
def joinSep (sep : List Char) : List (List Char) → List Char
  | [] => []
  | [x] => x
  | x :: y :: rest => x ++ sep ++ joinSep sep (y :: rest)

/-- `simple_local_summary(text, max_sentences)` of app.py: collapse
white-space, strip, sentence-split, join the first `maxS` sentences; if that
is empty (Python `or`), fall back to the first 200 characters with an
ellipsis when truncated. -/
def simple_local_summary (text : List Char) (maxS : Nat) : List Char :=
  let t := pyStrip (collapseWs text)
  let sentences := sentSplit t
  let joined := joinSep [' '] (sentences.take maxS)
  if joined ≠ [] then joined
  else t.take 200 ++ (if 200 < t.length then ['.', '.', '.'] else [])

/-- The header alternation `(?:Slide Title:|Title:)` with `re.IGNORECASE`:
on a match, returns the text after the header literal. -/
def headerSkip (cs : List Char) : Option (List Char) :=
  if startsWithCI "slide title:".toList cs then some (cs.drop 12)
  else if startsWithCI "title:".toList cs then some (cs.drop 6)
  else none

/-- Backtracking start position for the title: largest `j ≤ wsLen` such that
dropping `j` characters leaves a non-empty list not starting with `'\n'`
(the greedy `\s*` gives back characters until `.` can match). -/
def backtrackPos (cs : List Char) : Nat → Option Nat
  | 0 => match cs with
         | c :: _ => if c ≠ '\n' then some 0 else none
         | [] => none
  | j + 1 =>
    match cs.drop (j + 1) with
    | c :: _ => if c ≠ '\n' then some (j + 1) else backtrackPos cs j
    | [] => backtrackPos cs j

/-- `\s*(.+)` up to the end of line: the captured title (never empty, never
containing `'\n'`) and the remainder starting at the line break (not
consumed). Shared by the structured pattern's `\s*(.+?)(?:\n|$)` and the
markdown pattern's `\s*(.+)$`: both capture exactly the run up to the next
newline, with the same greedy-`\s*` backtracking. -/
def lazyTitle (cs : List Char) : Option (List Char × List Char) :=
  match backtrackPos cs (cs.takeWhile isPySpace).length with
  | some j => some ((cs.drop j).takeWhile (fun c => c ≠ '\n'), (cs.drop j).dropWhile (fun c => c ≠ '\n'))
  | none => none

/-- `\s*(.+?)(?:\n|$)` of the structured pattern: as `lazyTitle`, but the
terminating `'\n'` (when present) is consumed. -/
def structTitle (cs : List Char) : Option (List Char × List Char) :=
  match lazyTitle cs with
  | some (t, rest) => some (t, rest.drop 1)
  | none => none

/-- The lazy body `[\s\S]*?(?=(?:Slide Title:|Title:)|$)`: consume
characters until a header literal follows, or the end of the string, or the
position just before a final `'\n'` (`$` without `re.MULTILINE`). Returns
(body, remainder). -/
def takeBody : List Char → List Char × List Char
  | [] => ([], [])
  | c :: rest =>
    if (headerSkip (c :: rest)).isSome ∨ (c :: rest) = ['\n'] then ([], c :: rest)
    else
      let r := takeBody rest
      (c :: r.1, r.2)

/-- `pattern.findall(output)` for the structured pattern of
`parse_slides_from_output` (fuelled scan; fuel = input length suffices since
every step consumes at least one character). Yields (title, body) pairs. -/
def findMatchesF : Nat → List Char → List (List Char × List Char)
  | 0, _ => []
  | _ + 1, [] => []
  | fuel + 1, c :: rest =>
    match headerSkip (c :: rest) with
    | some afterH =>
      match structTitle afterH with
      | some tb =>
        let bb := takeBody tb.2
        (tb.1, bb.1) :: findMatchesF fuel bb.2
      | none => findMatchesF fuel rest
    | none => findMatchesF fuel rest

/-- All (title, body) captures of the structured header pattern. -/
def findMatches (cs : List Char) : List (List Char × List Char) :=
  findMatchesF cs.length cs

/-- One anchored attempt of the markdown pattern `^\s*#\s*(.+)$`
(`re.MULTILINE`): greedy `\s*` must end exactly at a `'#'`, then the title
line as in `lazyTitle`. Returns (title, remainder at the line break). -/
def matchMdAt (cs : List Char) : Option (List Char × List Char) :=
  match cs.dropWhile isPySpace with
  | '#' :: afterHash => lazyTitle afterHash
  | _ => none

/-- Scanner for the markdown pattern: walks the text, attempting a match at
every line-start position (`^` of `re.MULTILINE`). Returns the text before
the first match together with the list of (title, gap-after-match) pairs —
the gaps are exactly the pieces `re.split` with the same pattern produces
after each match. Fuelled; fuel = input length suffices. -/
def mdGoF : Nat → List Char → Bool → List Char × List (List Char × List Char)
  | 0, _, _ => ([], [])
  | _ + 1, [], _ => ([], [])
  | fuel + 1, c :: rest, atStart =>
    if atStart then
      match matchMdAt (c :: rest) with
      | some tr =>
        let g := mdGoF fuel tr.2 false
        ([], (tr.1, g.1) :: g.2)
      | none =>
        let g := mdGoF fuel rest (c = '\n')
        (c :: g.1, g.2)
    else
      let g := mdGoF fuel rest (c = '\n')
      (c :: g.1, g.2)

/-- The (md title, following body) pairs used by the markdown branch:
`md_matches` zipped with `parts[i+1]` of the `re.split` on the same
pattern. -/
def mdPairs (cs : List Char) : List (List Char × List Char) :=
  (mdGoF cs.length cs true).2

/-- The bullet-line test `re.match(r'^[-•\*\d\)]\s+', line)` on a stripped
line. -/
def qualifiesBullet : List Char → Bool
  | c :: d :: _ =>
    (c = '-' || c = '•' || c = '*' || c.isDigit || c = ')') && isPySpace d
  | _ => false

/-- The character class `[-•\*\d\)\.]` of the bullet-cleanup `re.sub`. -/
def inSubClass (c : Char) : Bool :=
  c = '-' || c = '•' || c = '*' || c.isDigit || c = ')' || c = '.'

/-- `re.sub(r'^[-•\*\d\)\.]+\s*', '', line).strip()`. -/
def cleanBullet (l : List Char) : List Char :=
  pyStrip ((l.dropWhile inSubClass).dropWhile isPySpace)

/-- The bullet-line extraction loop of the structured branch: strip each
line, skip empties, keep qualifying bullet lines cleaned up. -/
def structBullets (body : List Char) : List (List Char) :=
  (pySplitlines body).filterMap fun line =>
    let l := pyStrip line
    if l = [] then none
    else if qualifiesBullet l then some (cleanBullet l) else none

/-- One slide of the structured branch: bullet lines from the body, else
sentence-split of a local summary of the body; title stripped. -/
def mkStructSlide (t body : List Char) : PySlide :=
  if structBullets body = [] then
    ⟨String.mk (pyStrip t), (sentSplit (simple_local_summary body 4)).map String.mk⟩
  else ⟨String.mk (pyStrip t), (structBullets body).map String.mk⟩

/-- The bullet extraction of the markdown branch: lines starting with `-`
(after strip) with all leading `-•* ` characters removed, then stripped. -/
def mdBullets (body : List Char) : List (List Char) :=
  (pySplitlines body).filterMap fun line =>
    let ls := pyStrip line
    if ls.head? = some '-' then
      some (pyStrip (ls.dropWhile (fun c => c = '-' || c = '•' || c = '*' || c = ' ')))
    else none

/-- One slide of the markdown branch: dash bullets from the body, else
sentence-split of a summary of `body or t` (Python truthiness); title
stripped. -/
def mkMdSlide (t body : List Char) : PySlide :=
  if mdBullets body = [] then
    ⟨String.mk (pyStrip t),
     (sentSplit (simple_local_summary (if body = [] then t else body) 4)).map String.mk⟩
  else ⟨String.mk (pyStrip t), (mdBullets body).map String.mk⟩

/-- `[cleaned[i:i+1200] for i in range(0, len(cleaned), 1200)]` (fuelled;
fuel = input length suffices). -/
def chunksF : Nat → List Char → List (List Char)
  | 0, _ => []
  | _ + 1, [] => []
  | fuel + 1, c :: cs => ((c :: cs).take 1200) :: chunksF fuel ((c :: cs).drop 1200)

/-- One slide of the chunk fallback, for the 1-based chunk index `i`. -/
def mkChunkSlide (i : Nat) (ch : List Char) : PySlide :=
  let bullets := sentSplit (simple_local_summary ch 4)
  let title := match bullets with
               | b :: _ => b
               | [] => ("Part " ++ toString i).toList
  ⟨String.mk (title.take 60), bullets.map String.mk⟩

/-- `parse_slides_from_output` of app.py: structured headers first, then
markdown headings, then the whitespace-collapsed chunk fallback (empty
collapsed text returns `[]`). -/
def parse_slides_from_output (output : String) : List PySlide :=
  let cs := output.toList
  let ms := findMatches cs
  if ms ≠ [] then ms.map (fun m => mkStructSlide m.1 m.2)
  else
    let mds := mdPairs cs
    if mds ≠ [] then mds.map (fun m => mkMdSlide m.1 m.2)
    else
      let cleaned := pyStrip (collapseWs cs)
      if cleaned = [] then []
      else (chunksF cleaned.length cleaned).enum.map (fun p => mkChunkSlide (p.1 + 1) p.2)

/-- Python string slicing `s[:n]` (by code point). -/
def strTake (n : Nat) (s : String) : String := String.mk (s.toList.take n)

/-! ## Color resolution (`hex_to_rgb_obj`) -/

/-- Value of one hexadecimal digit. -/
def hexVal (c : Char) : Option Nat :=
  if c.isDigit then some (c.toNat - 48)
  else if decide ('a' ≤ c) && decide (c ≤ 'f') then some (c.toNat - 87)
  else if decide ('A' ≤ c) && decide (c ≤ 'F') then some (c.toNat - 55)
  else none

/-- Python `int(s, 16)` for the two-character slices `h[i:i+2]`: surrounding
white-space is stripped and a single leading sign is allowed (CPython's
`int` grammar restricted to inputs of length two). `none` models the
`ValueError` caught by the surrounding `try`. -/
def pyIntHex2 (cs : List Char) : Option Int :=
  match pyStrip cs with
  | [c] => (hexVal c).map (fun v => (v : Int))
  | [c, d] =>
    if c = '+' then (hexVal d).map (fun v => (v : Int))
    else if c = '-' then (hexVal d).map (fun v => -(v : Int))
    else
      match hexVal c, hexVal d with
      | some x, some y => some ((16 * x + y : Nat) : Int)
      | _, _ => none
  | _ => none

/-- The `try` block of `hex_to_rgb_obj` applied to the string with leading
`#`s already removed: length check, three `int(_, 16)` calls, and the
`RGBColor` range check (python-pptx raises unless each value is an `int` in
0..255). `none` models any raised exception. -/
def tryParseHex6 (h : List Char) : Option (Nat × Nat × Nat) :=
  if h.length ≠ 6 then none
  else
    match pyIntHex2 (h.take 2), pyIntHex2 ((h.drop 2).take 2), pyIntHex2 (h.drop 4) with
    | some r, some g, some b =>
      if 0 ≤ r ∧ r ≤ 255 ∧ 0 ≤ g ∧ g ≤ 255 ∧ 0 ≤ b ∧ b ≤ 255 then
        some (r.toNat, g.toNat, b.toNat)
      else none
    | _, _, _ => none

/-- The resolution prefix of `hex_to_rgb_obj`: empty string becomes
`"#FFFFFF"`, strip, a string not starting with `#` is pushed through
`COLOR_MAP.get(lower, "#FFFFFF")`, and all leading `#`s are removed
(`lstrip("#")`). -/
def resolvedHexChars (s : String) : List Char :=
  let hc0 := if s = "" then "#FFFFFF".toList else s.toList
  let hc1 := pyStrip hc0
  let hc2 := if hc1.head? = some '#' then hc1
             else ((alGet COLOR_MAP (String.mk (lowerL hc1))).getD "#FFFFFF").toList
  hc2.dropWhile (fun c => c = '#')

/-- `hex_to_rgb_obj` of app.py, returning the `RGBColor` components; every
failure path degrades to white `(255, 255, 255)`. -/
def hex_to_rgb_obj (s : String) : Nat × Nat × Nat :=
  match tryParseHex6 (resolvedHexChars s) with
  | some rgb => rgb
  | none => (255, 255, 255)

/-- The spec's notion of a literal 6-hex-digit color token `#RRGGBB`:
exactly one `#` followed by exactly six hexadecimal digits. Stated from the
spec's words, for comparison with what the code accepts. -/
def specHexToken (s : String) : Bool :=
  match s.toList with
  | '#' :: rest => (rest.length == 6) && rest.all isHexDig
  | _ => false

/-! ## Association-list (Python dict) lemmas -/

theorem alGet_dictInsert_self (d : StyleDict) (k : String) (v : SVal) :
    alGet (dictInsert d k v) k = some v := by
  induction d with
  | nil => simp [dictInsert, alGet]
  | cons kv rest ih =>
    obtain ⟨k0, v0⟩ := kv
    by_cases hk : k0 = k
    · simp [dictInsert, hk, alGet]
    · simp [dictInsert, hk, alGet, ih]

theorem alGet_dictInsert_ne (d : StyleDict) (k k2 : String) (v : SVal) (h : k ≠ k2) :
    alGet (dictInsert d k v) k2 = alGet d k2 := by
  induction d with
  | nil => simp [dictInsert, alGet, h]
  | cons kv rest ih =>
    obtain ⟨k0, v0⟩ := kv
    by_cases hk : k0 = k
    · subst hk
      simp [dictInsert, alGet, h]
    · simp [dictInsert, hk, alGet, ih]

theorem alGet_mergeStyles_not_mem {j : StyleDict} {k : String} (b : StyleDict)
    (h : k ∉ j.map Prod.fst) : alGet (mergeStyles b j) k = alGet b k := by
  induction j generalizing b with
  | nil => rfl
  | cons kv rest ih =>
    obtain ⟨k0, v0⟩ := kv
    simp only [List.map_cons, List.mem_cons, not_or] at h
    rw [show mergeStyles b ((k0, v0) :: rest) = mergeStyles (dictInsert b k0 v0) rest from rfl]
    rw [ih _ h.2, alGet_dictInsert_ne _ _ _ _ (fun hh => h.1 hh.symm)]

theorem alGet_mergeStyles {j : StyleDict} {k : String} {v : SVal} (b : StyleDict)
    (h1 : alGet j k = some v) (h2 : (j.map Prod.fst).Nodup) :
    alGet (mergeStyles b j) k = some v := by
  induction j generalizing b with
  | nil => simp [alGet] at h1
  | cons kv rest ih =>
    obtain ⟨k0, v0⟩ := kv
    rw [List.map_cons, List.nodup_cons] at h2
    rw [show mergeStyles b ((k0, v0) :: rest) = mergeStyles (dictInsert b k0 v0) rest from rfl]
    by_cases hk : k0 = k
    · subst hk
      have hv : v0 = v := by simpa [alGet] using h1
      subst hv
      rw [alGet_mergeStyles_not_mem _ h2.1, alGet_dictInsert_self]
    · have h1' : alGet rest k = some v := by simpa [alGet, hk] using h1
      exact ih _ h1' h2.2

theorem alGet_fillMissing {d : StyleDict} {k : String} {v : SVal} (ps : StyleDict)
    (h1 : alGet d k = some v) (h3 : v ≠ SVal.null) :
    alGet (fillMissing d ps) k = some v := by
  induction ps generalizing d with
  | nil => exact h1
  | cons kv rest ih =>
    obtain ⟨k0, v0⟩ := kv
    rw [show fillMissing d ((k0, v0) :: rest) =
      fillMissing (if alGet d k0 = none ∨ alGet d k0 = some SVal.null then
        dictInsert d k0 v0 else d) rest from rfl]
    by_cases hk : k0 = k
    · subst hk
      rw [if_neg (by
        rw [h1]
        rintro (hc | hc)
        · exact Option.noConfusion hc
        · exact h3 (Option.some.inj hc))]
      exact ih h1
    · by_cases hc : alGet d k0 = none ∨ alGet d k0 = some SVal.null
      · rw [if_pos hc]
        exact ih (by rw [alGet_dictInsert_ne _ _ _ _ hk]; exact h1)
      · rw [if_neg hc]
        exact ih h1

/-! ## Step-preservation lemmas for `parse_design_prompt` -/

theorem hexStep_preserves (cs : List Char) (st : StyleDict) (key : String)
    (h : key ≠ "background_color") : alGet (hexStep cs st) key = alGet st key := by
  unfold hexStep
  split
  · exact alGet_dictInsert_ne _ _ _ _ (fun hh => h hh.symm)
  · rfl

theorem colorStep_preserves (pl : List Char) (st : StyleDict) (key : String)
    (h1 : key ≠ "background_color") (h2 : key ≠ "font_color") :
    alGet (colorStep pl st) key = alGet st key := by
  unfold colorStep
  split
  · rw [alGet_dictInsert_ne _ _ _ _ (fun hh => h2 hh.symm),
      alGet_dictInsert_ne _ _ _ _ (fun hh => h1 hh.symm)]
  · rfl

theorem colorStep_none (pl : List Char) (st : StyleDict) (h : findColor pl = none) :
    colorStep pl st = st := by
  unfold colorStep
  rw [h]

theorem fontStep_preserves (pl : List Char) (st : StyleDict) (key : String)
    (h : key ≠ "font") : alGet (fontStep pl st) key = alGet st key := by
  unfold fontStep
  split
  · exact alGet_dictInsert_ne _ _ _ _ (fun hh => h hh.symm)
  · rfl

theorem sizeLargeStep_preserves (pl : List Char) (st : StyleDict) (key : String)
    (h : key ≠ "font_size") : alGet (sizeLargeStep pl st) key = alGet st key := by
  unfold sizeLargeStep
  split
  · exact alGet_dictInsert_ne _ _ _ _ (fun hh => h hh.symm)
  · rfl

theorem sizeSmallStep_preserves (pl : List Char) (st : StyleDict) (key : String)
    (h : key ≠ "font_size") : alGet (sizeSmallStep pl st) key = alGet st key := by
  unfold sizeSmallStep
  split
  · exact alGet_dictInsert_ne _ _ _ _ (fun hh => h hh.symm)
  · rfl

theorem fsStep_preserves (pl : List Char) (st : StyleDict) (key : String)
    (h : key ≠ "font_size") : alGet (fsStep pl st) key = alGet st key := by
  unfold fsStep
  split
  · exact alGet_dictInsert_ne _ _ _ _ (fun hh => h hh.symm)
  · rfl

theorem emojiStep_preserves (pl : List Char) (st : StyleDict) (key : String)
    (h : key ≠ "emoji_in_bullets") : alGet (emojiStep pl st) key = alGet st key := by
  unfold emojiStep
  split
  · exact alGet_dictInsert_ne _ _ _ _ (fun hh => h hh.symm)
  · rfl

theorem parse_design_prompt_unfold (p : String) :
    parse_design_prompt p =
      emojiStep (lowerL p.toList) (fsStep (lowerL p.toList) (sizeSmallStep (lowerL p.toList)
        (sizeLargeStep (lowerL p.toList) (fontStep (lowerL p.toList)
          (colorStep (lowerL p.toList) (hexStep p.toList initStyle)))))) := rfl

/-! ## Claim theorems: style prompt parsing and merge -/

/-- C1 (counterexample): the claim says a literal `#RRGGBB` token wins for
`background_color` regardless of color words; but on the prompt
`"blue #AABBCC"` — which contains the hex token `#AABBCC` — the color word
`blue` overwrites it, yielding `#003366`, not `#AABBCC`. -/
theorem C1_hex_loses_counterexample :
    alGet (parse_design_prompt "blue #AABBCC") "background_color" = some (SVal.s "#003366") ∧
      findHex "blue #AABBCC".toList = some "AABBCC".toList ∧
      SVal.s "#003366" ≠ SVal.s "#AABBCC" := by
  refine ⟨by decide, by decide, by decide⟩

/-- C1 (amended): the hex token sets `background_color` and survives only
when no `COLOR_MAP` color word occurs in the lower-cased prompt; the
color-word loop runs after the hex search and overwrites its result. -/
theorem C1_hex_wins_without_color_words (p : String) (h6 : List Char)
    (hhex : findHex p.toList = some h6)
    (hcol : findColor (lowerL p.toList) = none) :
    alGet (parse_design_prompt p) "background_color" =
      some (SVal.s (String.mk ('#' :: h6))) := by
  rw [parse_design_prompt_unfold,
    emojiStep_preserves _ _ _ (by decide),
    fsStep_preserves _ _ _ (by decide),
    sizeSmallStep_preserves _ _ _ (by decide),
    sizeLargeStep_preserves _ _ _ (by decide),
    fontStep_preserves _ _ _ (by decide),
    colorStep_none _ _ hcol]
  unfold hexStep
  rw [hhex]
  exact alGet_dictInsert_self _ _ _

/-- C1 (witness): on `"#AABBCC pls"`, which has a hex token and no color
word, the background is the hex token. -/
theorem C1_witness :
    alGet (parse_design_prompt "#AABBCC pls") "background_color" =
      some (SVal.s (String.mk ('#' :: "AABBCC".toList))) :=
  C1_hex_wins_without_color_words "#AABBCC pls" "AABBCC".toList (by decide) (by decide)

/-- C2: a value present (by key) in the extracted style JSON survives the
call-site merge into the prompt-derived style and the subsequent
fill-missing pass, provided the JSON dict has distinct keys and the value
is not `None` (a `None` value would be replaced by the prompt-derived one
in the fill pass). The extracted-JSON value therefore wins over any
prompt-derived value for the same field. -/
theorem C2_json_overrides_prompt (p : String) (j : StyleDict) (k : String) (v : SVal)
    (h1 : alGet j k = some v) (h2 : (j.map Prod.fst).Nodup) (h3 : v ≠ SVal.null) :
    alGet (resolvedStyle p (some j)) k = some v := by
  unfold resolvedStyle
  exact alGet_fillMissing _ (alGet_mergeStyles _ h1 h2) h3

/-- C2 (witness): the prompt `"Use Arial please"` parses to font `Arial`;
merging the extracted JSON `{"font": "Calibri"}` yields `Calibri`. -/
theorem C2_witness :
    alGet (parse_design_prompt "Use Arial please") "font" = some (SVal.s "Arial") ∧
      alGet (resolvedStyle "Use Arial please" (some [("font", SVal.s "Calibri")])) "font" =
        some (SVal.s "Calibri") :=
  ⟨by decide,
   C2_json_overrides_prompt "Use Arial please" [("font", SVal.s "Calibri")] "font"
     (SVal.s "Calibri") (by decide) (by decide) (by decide)⟩

/-- C8 (counterexample): the claim says `parse_design_prompt` captures a
`footer: <text>` instruction into `footer_text`; but on `"footer: hello"`
the returned style has no `footer_text` key at all. -/
theorem C8_no_footer_counterexample :
    alGet (parse_design_prompt "footer: hello") "footer_text" = none := by decide

/-- C8 (amended): `parse_design_prompt` never produces a `footer_text`
field, for any prompt: no step of the parser touches that key. -/
theorem C8_footer_never_set (prompt : String) :
    alGet (parse_design_prompt prompt) "footer_text" = none := by
  rw [parse_design_prompt_unfold,
    emojiStep_preserves _ _ _ (by decide),
    fsStep_preserves _ _ _ (by decide),
    sizeSmallStep_preserves _ _ _ (by decide),
    sizeLargeStep_preserves _ _ _ (by decide),
    fontStep_preserves _ _ _ (by decide),
    colorStep_preserves _ _ _ (by decide) (by decide),
    hexStep_preserves _ _ _ (by decide)]
  rfl

/-! ## Claim theorems: slide content parsing -/

theorem sentSplit_ne_nil (cs : List Char) : sentSplit cs ≠ [] := by
  simp [sentSplit]

theorem mkStructSlide_bullets_ne_nil (t body : List Char) :
    (mkStructSlide t body).bullets ≠ [] := by
  unfold mkStructSlide
  by_cases h : structBullets body = [] <;> simp [h, sentSplit]

theorem mkMdSlide_bullets_ne_nil (t body : List Char) :
    (mkMdSlide t body).bullets ≠ [] := by
  unfold mkMdSlide
  by_cases h : mdBullets body = [] <;> simp [h, sentSplit]

theorem mkChunkSlide_bullets_ne_nil (i : Nat) (ch : List Char) :
    (mkChunkSlide i ch).bullets ≠ [] := by
  unfold mkChunkSlide
  simp [sentSplit]

theorem mkChunkSlide_shape (i : Nat) (ch : List Char) :
    ∃ b rest, (mkChunkSlide i ch).bullets = b :: rest ∧
      (mkChunkSlide i ch).title = strTake 60 b := by
  exact ⟨String.mk (ssGo (simple_local_summary ch 4) false false).1,
    ((ssGo (simple_local_summary ch 4) false false).2).map String.mk, rfl, rfl⟩

/-- C3: on the input `"Slide Title: A\n- x\n- y\nSlide Title: B\n- z"` the
slide content parser returns exactly the two slides `{title := "A",
bullets := ["x", "y"]}` and `{title := "B", bullets := ["z"]}`. -/
theorem C3_two_slides :
    parse_slides_from_output "Slide Title: A\n- x\n- y\nSlide Title: B\n- z" =
      [{title := "A", bullets := ["x", "y"]}, {title := "B", bullets := ["z"]}] := by
  decide

/-- C4 (counterexample): the claim says every non-empty input without
headers or bullet markers yields a non-empty slide sequence; but the
non-empty input `" "` (a single space, no headers, no bullets) collapses to
the empty string and the parser returns `[]`. -/
theorem C4_whitespace_counterexample :
    parse_slides_from_output " " = [] ∧ (" " : String) ≠ "" := by
  refine ⟨by decide, by decide⟩

/-- C4 (amended): for every input whose whitespace-collapsed, stripped text
is non-empty, the parser returns a non-empty slide sequence (every branch
produces at least one slide); only inputs that are empty or all whitespace
return `[]`. -/
theorem C4_nonblank_yields_slides (output : String)
    (h : pyStrip (collapseWs output.toList) ≠ []) :
    parse_slides_from_output output ≠ [] := by
  have hd : pyStrip (collapseWs output.data) ≠ [] := h
  by_cases hms : findMatches output.data = []
  · by_cases hmd : mdPairs output.data = []
    · have heq : parse_slides_from_output output =
          (chunksF (pyStrip (collapseWs output.data)).length
            (pyStrip (collapseWs output.data))).enum.map
              (fun p => mkChunkSlide (p.1 + 1) p.2) := by
        simp [parse_slides_from_output, hms, hmd, hd]
      rw [heq]
      obtain ⟨c, cs, hcons⟩ := List.exists_cons_of_ne_nil hd
      rw [hcons]
      simp [chunksF]
    · have heq : parse_slides_from_output output =
          (mdPairs output.data).map (fun m => mkMdSlide m.1 m.2) := by
        simp [parse_slides_from_output, hms, hmd]
      rw [heq]
      simpa using hmd
  · have heq : parse_slides_from_output output =
        (findMatches output.data).map (fun m => mkStructSlide m.1 m.2) := by
      simp [parse_slides_from_output, hms]
    rw [heq]
    simpa using hms

/-- C4 (witness): `"hello"` has non-blank collapsed text and produces
slides. -/
theorem C4_witness : parse_slides_from_output "hello" ≠ [] :=
  C4_nonblank_yields_slides "hello" (by decide)

/-- C5 (counterexample): the claim says empty input yields exactly one
placeholder slide; but the parser returns a sequence of length 0, not 1. -/
theorem C5_empty_counterexample :
    (parse_slides_from_output "").length = 0 ∧ (0 : Nat) ≠ 1 := by
  refine ⟨by decide, by decide⟩

/-- C5 (amended): empty input yields the empty slide sequence — the chunk
fallback returns `[]` when the collapsed text is empty; no placeholder
slide exists in the code. -/
theorem C5_empty_yields_nil : parse_slides_from_output "" = [] := by decide

/-- C6 (counterexample): the claim says titles are never empty (placeholder
substituted) and empty bullet lists are replaced by a placeholder bullet;
but on `"Title: \n"` the parser produces exactly one slide whose title is
the empty string and whose single bullet is the empty string. -/
theorem C6_empty_title_counterexample :
    parse_slides_from_output "Title: \n" = [{title := "", bullets := [""]}] ∧
      ({title := "", bullets := [""]} : PySlide).title = "" := by
  refine ⟨by decide, rfl⟩

/-- C6 (amended): no placeholder substitution exists and titles may be
empty; what does hold is that every produced slide has a non-empty bullets
sequence (the sentence-split fallback always yields at least one — possibly
empty — string). -/
theorem C6_bullets_nonempty (output : String) (s : PySlide)
    (hs : s ∈ parse_slides_from_output output) : s.bullets ≠ [] := by
  by_cases hms : findMatches output.data = []
  · by_cases hmd : mdPairs output.data = []
    · by_cases hcl : pyStrip (collapseWs output.data) = []
      · have heq : parse_slides_from_output output = [] := by
          simp [parse_slides_from_output, hms, hmd, hcl]
        rw [heq] at hs
        simp at hs
      · have heq : parse_slides_from_output output =
            (chunksF (pyStrip (collapseWs output.data)).length
              (pyStrip (collapseWs output.data))).enum.map
                (fun p => mkChunkSlide (p.1 + 1) p.2) := by
          simp [parse_slides_from_output, hms, hmd, hcl]
        rw [heq] at hs
        obtain ⟨p, _, rfl⟩ := List.mem_map.mp hs
        exact mkChunkSlide_bullets_ne_nil _ _
    · have heq : parse_slides_from_output output =
          (mdPairs output.data).map (fun m => mkMdSlide m.1 m.2) := by
        simp [parse_slides_from_output, hms, hmd]
      rw [heq] at hs
      obtain ⟨m, _, rfl⟩ := List.mem_map.mp hs
      exact mkMdSlide_bullets_ne_nil _ _
  · have heq : parse_slides_from_output output =
        (findMatches output.data).map (fun m => mkStructSlide m.1 m.2) := by
      simp [parse_slides_from_output, hms]
    rw [heq] at hs
    obtain ⟨m, _, rfl⟩ := List.mem_map.mp hs
    exact mkStructSlide_bullets_ne_nil _ _

/-- C6 (witness): the slide produced from `"hi"` has non-empty bullets. -/
theorem C6_witness : ({title := "hi", bullets := ["hi"]} : PySlide).bullets ≠ [] :=
  C6_bullets_nonempty "hi" {title := "hi", bullets := ["hi"]} (by decide)

/-- C7 (counterexample): the claim says bullets are capped at 6 per slide;
but a body with seven qualifying bullet lines yields a slide with seven
bullets. -/
theorem C7_seven_bullets_counterexample :
    (parse_slides_from_output "Slide Title: T\n- a\n- b\n- c\n- d\n- e\n- f\n- g").map
        (fun s => s.bullets.length) = [7] ∧ ¬ (7 ≤ 6) := by
  refine ⟨by decide, by decide⟩

/-- C7 (amended): no bullet cap exists in the code; every qualifying bullet
line of a body becomes a bullet, so a seven-line body produces a slide
carrying all seven bullets unchanged. -/
theorem C7_bullets_uncapped :
    parse_slides_from_output "Slide Title: T\n- a\n- b\n- c\n- d\n- e\n- f\n- g" =
      [{title := "T", bullets := ["a", "b", "c", "d", "e", "f", "g"]}] := by
  decide

/-- C10: whenever the structured and markdown scans both find nothing (the
chunk-fallback branch), every produced slide's title equals its first
bullet truncated to 60 characters. -/
theorem C10_chunk_title_is_first_bullet (output : String)
    (h1 : findMatches output.toList = [])
    (h2 : mdPairs output.toList = [])
    (s : PySlide) (hs : s ∈ parse_slides_from_output output) :
    ∃ b rest, s.bullets = b :: rest ∧ s.title = strTake 60 b := by
  have h1d : findMatches output.data = [] := h1
  have h2d : mdPairs output.data = [] := h2
  by_cases hcl : pyStrip (collapseWs output.data) = []
  · have heq : parse_slides_from_output output = [] := by
      simp [parse_slides_from_output, h1d, h2d, hcl]
    rw [heq] at hs
    simp at hs
  · have heq : parse_slides_from_output output =
        (chunksF (pyStrip (collapseWs output.data)).length
          (pyStrip (collapseWs output.data))).enum.map
            (fun p => mkChunkSlide (p.1 + 1) p.2) := by
      simp [parse_slides_from_output, h1d, h2d, hcl]
    rw [heq] at hs
    obtain ⟨p, _, rfl⟩ := List.mem_map.mp hs
    exact mkChunkSlide_shape _ _

/-- C10 (witness): `"hello"` goes through the chunk fallback and its single
slide's title is its first bullet (truncated to 60 chars). -/
theorem C10_witness :
    ∃ b rest, ({title := "hello", bullets := ["hello"]} : PySlide).bullets = b :: rest ∧
      ({title := "hello", bullets := ["hello"]} : PySlide).title = strTake 60 b :=
  C10_chunk_title_is_first_bullet "hello" (by decide) (by decide)
    {title := "hello", bullets := ["hello"]} (by decide)

/-! ## Claim theorems: color resolution -/

theorem tryParseHex6_le {l : List Char} {t : Nat × Nat × Nat}
    (h : tryParseHex6 l = some t) : t.1 ≤ 255 ∧ t.2.1 ≤ 255 ∧ t.2.2 ≤ 255 := by
  unfold tryParseHex6 at h
  split at h
  · exact absurd h (by simp)
  · split at h
    · split at h
      · rename_i hcond
        obtain ⟨h0r, hr, h0g, hg, h0b, hb⟩ := hcond
        cases h
        refine ⟨?_, ?_, ?_⟩ <;> simp <;> omega
      · exact absurd h (by simp)
    · exact absurd h (by simp)

/-- C9 (counterexample): the claim says any string that is not a valid
6-hex-digit `#RRGGBB` token and not a known color name degrades to white;
but `"##FF0000"` — neither a `#RRGGBB` token nor a `COLOR_MAP` name — is
leniently accepted (`lstrip("#")` removes all leading hashes) and resolves
to red, not white. -/
theorem C9_lenient_counterexample :
    hex_to_rgb_obj "##FF0000" = (255, 0, 0) ∧
      ((255, 0, 0) : Nat × Nat × Nat) ≠ (255, 255, 255) ∧
      specHexToken "##FF0000" = false ∧
      alGet COLOR_MAP "##ff0000" = none := by
  refine ⟨by decide, by decide, by decide, by decide⟩

/-- C9 (amended): `hex_to_rgb_obj` is total (it never raises) and always
returns components in 0..255; it returns white exactly when the lenient
parse of the resolved character string fails — but the acceptance is
lenient (surrounding whitespace, repeated leading `#`s, and Python `int`
sign quirks are tolerated), so some strings that are neither strict
`#RRGGBB` tokens nor color names still resolve to non-white colors. -/
theorem C9_total_in_range (s : String) :
    (hex_to_rgb_obj s).1 ≤ 255 ∧ (hex_to_rgb_obj s).2.1 ≤ 255 ∧
      (hex_to_rgb_obj s).2.2 ≤ 255 ∧
      (tryParseHex6 (resolvedHexChars s) = none → hex_to_rgb_obj s = (255, 255, 255)) := by
  cases h : tryParseHex6 (resolvedHexChars s) with
  | none => simp [hex_to_rgb_obj, h]
  | some t =>
    obtain ⟨h1, h2, h3⟩ := tryParseHex6_le h
    simp [hex_to_rgb_obj, h, h1, h2, h3]

/-- C9 (witness): an unparsable hex string degrades to white. -/
theorem C9_witness : hex_to_rgb_obj "#zz0000" = (255, 255, 255) :=
  (C9_total_in_range "#zz0000").2.2.2 (by decide)

end AIPPT
